import Mathlib

/-!
Shallow embedding of the session, resilience and caching core of an MCP
server bridging a local stdio transport to the Linear API.  The definitions
below are transcribed from the TypeScript sources: the connection state and
shutdown coordinator from src/server/connection.ts, the transport error and
message handlers from src/server/transport.ts (with the monolithic snapshot
in src/server.ts supplying the teardown variant that closes the transport),
the timeout guard from the utils timeout module, the TTL cache from the
SimpleCache module, and the batch executor from the batch utils module.
Timestamps and durations are modelled as natural numbers of milliseconds;
the asynchronous handlers are modelled as pure transition functions on the
connection state that additionally report their externally visible effects.
-/

namespace McpLinear

/-- MAX_RECONNECT_ATTEMPTS from src/server/config.ts. -/
def MAX_RECONNECT_ATTEMPTS : Nat := 3

/-- RECONNECT_DELAY_MS from src/server/config.ts. -/
def RECONNECT_DELAY_MS : Nat := 2000

/-- SHUTDOWN_GRACE_PERIOD_MS from src/server/config.ts. -/
def SHUTDOWN_GRACE_PERIOD_MS : Nat := 5000

/-- HEARTBEAT_INTERVAL_MS from src/server/config.ts. -/
def HEARTBEAT_INTERVAL_MS : Nat := 10000

/-- The connectionState object from src/server/connection.ts. -/
structure ConnectionState where
  isConnected : Bool
  reconnectAttempts : Nat
  lastHeartbeat : Nat
  isPipeActive : Bool
  isShuttingDown : Bool
deriving Repr, DecidableEq

/-- The initial value of connectionState, with lastHeartbeat set to the
time of module load (a parameter here). -/
def initialState (t0 : Nat) : ConnectionState :=
  { isConnected := false
    reconnectAttempts := 0
    lastHeartbeat := t0
    isPipeActive := true
    isShuttingDown := false }

/-- Externally visible effects of one handler invocation: reconnect timers
armed via setTimeout, transport.close calls, grace period waits (with their
duration), and process.exit calls (with their status code). -/
structure Fx where
  scheduledReconnects : Nat
  channelCloses : Nat
  graceWaits : List Nat
  exitCodes : List Nat
deriving Repr, DecidableEq

/-- The empty effect record. -/
def Fx.none : Fx :=
  { scheduledReconnects := 0, channelCloses := 0, graceWaits := [], exitCodes := [] }

/-- Sequential composition of effect records. -/
def Fx.merge (a b : Fx) : Fx :=
  { scheduledReconnects := a.scheduledReconnects + b.scheduledReconnects
    channelCloses := a.channelCloses + b.channelCloses
    graceWaits := a.graceWaits ++ b.graceWaits
    exitCodes := a.exitCodes ++ b.exitCodes }

/-- The shutdown coordinator from src/server/connection.ts: a second call
while isShuttingDown returns immediately; otherwise it latches the flag,
waits SHUTDOWN_GRACE_PERIOD_MS and exits with status 0. -/
def shutdown (s : ConnectionState) : ConnectionState × Fx :=
  if s.isShuttingDown then (s, Fx.none)
  else
    ({ s with isShuttingDown := true },
     { scheduledReconnects := 0
       channelCloses := 0
       graceWaits := [SHUTDOWN_GRACE_PERIOD_MS]
       exitCodes := [0] })

/-- The shutdown function of the monolithic snapshot (src/server.ts): like
the modular one but it also closes the transport, guarded by isPipeActive
(when the pipe is gone the close is skipped with a debug log). -/
def shutdownMono (s : ConnectionState) : ConnectionState × Fx :=
  if s.isShuttingDown then (s, Fx.none)
  else
    ({ s with isShuttingDown := true },
     { scheduledReconnects := 0
       channelCloses := if s.isPipeActive then 1 else 0
       graceWaits := [SHUTDOWN_GRACE_PERIOD_MS]
       exitCodes := [0] })

/-- handlePipeError from src/server/connection.ts: on an EPIPE error code it
marks the pipe inactive, triggers shutdown unless one is already in
progress, and reports the error as handled; any other code is not handled. -/
def handlePipeError (code : String) (s : ConnectionState) : Bool × ConnectionState × Fx :=
  if code = "EPIPE" then
    let s1 := { s with isPipeActive := false }
    if s1.isShuttingDown then (true, s1, Fx.none)
    else
      let r := shutdown s1
      (true, r.fst, r.snd)
  else (false, s, Fx.none)

/-- The transport.onerror handler from src/server/transport.ts.  EPIPE is
delegated to handlePipeError; otherwise, while not shutting down and below
MAX_RECONNECT_ATTEMPTS the attempt counter is incremented and a reconnect
timer is armed, and at or above the bound shutdown is initiated. -/
def onError (code : String) (s : ConnectionState) : ConnectionState × Fx :=
  match handlePipeError code s with
  | (true, s1, fx) => (s1, fx)
  | (false, _, _) =>
    if !s.isShuttingDown && s.reconnectAttempts < MAX_RECONNECT_ATTEMPTS then
      ({ s with reconnectAttempts := s.reconnectAttempts + 1 },
       { scheduledReconnects := 1, channelCloses := 0, graceWaits := [], exitCodes := [] })
    else if !s.isShuttingDown then
      shutdown s
    else
      (s, Fx.none)

/-- The body of the reconnect setTimeout callback in transport.onerror
(src/server/transport.ts).  connectOk records whether the awaited
server.connect call would succeed.  With the pipe inactive it shuts down
without attempting to connect; on a successful connect it sets isConnected;
on a failed connect it shuts down only when the attempt counter has reached
MAX_RECONNECT_ATTEMPTS. -/
def reconnectCallback (connectOk : Bool) (s : ConnectionState) : ConnectionState × Fx :=
  if !s.isPipeActive then shutdown s
  else if connectOk then ({ s with isConnected := true }, Fx.none)
  else if MAX_RECONNECT_ATTEMPTS ≤ s.reconnectAttempts then shutdown s
  else (s, Fx.none)

/-- The state mutations of the transport.onmessage handler from
src/server/transport.ts, dispatching on the inbound method name with the
current clock reading passed as now. -/
def onMessage (method : String) (now : Nat) (s : ConnectionState) : ConnectionState :=
  if method = "initialize" then { s with isConnected := true, lastHeartbeat := now }
  else if method = "initialized" then { s with isConnected := true }
  else if method = "server/heartbeat" then { s with lastHeartbeat := now }
  else s

/-- The events that can reach the connection state: a transport error with
an error code, a previously armed reconnect timer firing, an inbound
message, or a shutdown trigger (signal, uncaught exception, unhandled
rejection). -/
inductive Event where
  | transportError (code : String)
  | reconnectTimer (connectOk : Bool)
  | inboundMessage (method : String) (now : Nat)
  | shutdownSignal
deriving Repr, DecidableEq

/-- Dispatch of one event to the corresponding handler. -/
def step (e : Event) (s : ConnectionState) : ConnectionState × Fx :=
  match e with
  | Event.transportError code => onError code s
  | Event.reconnectTimer ok => reconnectCallback ok s
  | Event.inboundMessage method now => (onMessage method now s, Fx.none)
  | Event.shutdownSignal => shutdown s

/-- Running a sequence of events, accumulating effects. -/
def run (s : ConnectionState) : List Event → ConnectionState × Fx
  | [] => (s, Fx.none)
  | e :: es =>
    let r1 := step e s
    let r2 := run r1.fst es
    (r2.fst, Fx.merge r1.snd r2.snd)

/-- The shutdown triggers wired up in the monolithic snapshot
(src/server.ts): SIGINT and SIGTERM signal handlers, the uncaughtException
and unhandledRejection handlers, and a broken-pipe report on stdin or
stdout (which goes through handlePipeError). -/
inductive Trigger where
  | sigint
  | sigterm
  | uncaughtException
  | unhandledRejection
  | pipeClosure
deriving Repr, DecidableEq

/-- Firing one shutdown trigger of the monolithic snapshot.  Signals and
fault handlers call shutdown directly; a pipe closure runs the EPIPE branch
of handlePipeError, which first marks the pipe inactive and then calls
shutdown unless one is already in progress. -/
def fireTrigger (t : Trigger) (s : ConnectionState) : ConnectionState × Fx :=
  match t with
  | Trigger.pipeClosure =>
    let s1 := { s with isPipeActive := false }
    if s1.isShuttingDown then (s1, Fx.none) else shutdownMono s1
  | _ => shutdownMono s

/-- Firing a sequence of shutdown triggers, accumulating effects. -/
def runTriggers (s : ConnectionState) : List Trigger → ConnectionState × Fx
  | [] => (s, Fx.none)
  | t :: ts =>
    let r1 := fireTrigger t s
    let r2 := runTriggers r1.fst ts
    (r2.fst, Fx.merge r1.snd r2.snd)

/-! Timeout guard, from the utils timeout module. -/

/-- API_TIMEOUT_MS from the utils timeout module, the default deadline of
withTimeout. -/
def API_TIMEOUT_MS : Nat := 30000

/-- A settled promise in the cooperative model: the time at which it
settles and its outcome (a resolution value or a rejection message). -/
structure JsPromise (α : Type) where
  settleAt : Nat
  outcome : Except String α
deriving Repr

/-- createTimeout from the utils timeout module: a promise that rejects at
ms with the message built from the deadline and the context label. -/
def createTimeout (α : Type) (ms : Nat) (message : String) : JsPromise α :=
  { settleAt := ms
    outcome := Except.error ("Timeout after " ++ toString ms ++ "ms: " ++ message) }

/-- Promise.race of two promises: whichever settles first determines the
outcome; on a tie the promise listed first wins. -/
def promiseRace (p q : JsPromise α) : JsPromise α :=
  if p.settleAt ≤ q.settleAt then p else q

/-- The substring test used by the catch clause of withTimeout, modelling
the JavaScript String.prototype.includes. -/
def strIncludes (s sub : String) : Bool :=
  decide (List.IsInfix sub.data s.data)

/-- Effects of the timeout guard: it may log a timeout with its context
label; a cancellation of the raced operation would be a cancelled effect,
which the code never produces. -/
inductive GuardFx where
  | logged (context : String)
  | cancelled
deriving Repr, DecidableEq

/-- withTimeout from the utils timeout module: races the wrapped promise
against createTimeout, logs when the losing branch produced a timeout
shaped message, and rethrows errors unchanged. -/
def withTimeout (p : JsPromise α) (timeoutMs : Nat) (context : String) :
    Except String α × List GuardFx :=
  match (promiseRace p (createTimeout α timeoutMs context)).outcome with
  | Except.ok v => (Except.ok v, [])
  | Except.error msg =>
    if strIncludes msg "Timeout after" then (Except.error msg, [GuardFx.logged context])
    else (Except.error msg, [])

/-- A call of withTimeout that omits the deadline argument: the TypeScript
default parameter substitutes API_TIMEOUT_MS. -/
def withTimeoutNoDeadline (p : JsPromise α) (context : String) :
    Except String α × List GuardFx :=
  withTimeout p API_TIMEOUT_MS context

/-! TTL cache, from the SimpleCache module. -/

/-- CacheEntry from the SimpleCache module. -/
structure CacheEntry (α : Type) where
  value : α
  timestamp : Nat
  expiresAt : Nat
deriving Repr, DecidableEq

/-- The backing Map of SimpleCache, modelled as its entry list in insertion
order (JavaScript Map iteration order). -/
abbrev Cache (α : Type) : Type := List (String × CacheEntry α)

/-- CACHE_TTL_MS, the default ttl of SimpleCache.set. -/
def CACHE_TTL_MS : Nat := 5 * 60 * 1000

/-- Map.prototype.delete: removes the entry with the given key. -/
def cacheDelete (c : Cache α) (key : String) : Cache α :=
  c.filter (fun p => p.fst ≠ key)

/-- Map.prototype.set as used by SimpleCache.set: overwrite the existing
slot in place, or append a new entry. -/
def mapSet (c : Cache α) (key : String) (e : CacheEntry α) : Cache α :=
  match c with
  | [] => [(key, e)]
  | p :: rest => if p.fst = key then (key, e) :: rest else p :: mapSet rest key e

/-- SimpleCache.set: stores the value with timestamp now and expiry
now + ttlMs. -/
def cacheSet (c : Cache α) (key : String) (v : α) (ttlMs : Nat) (now : Nat) : Cache α :=
  mapSet c key { value := v, timestamp := now, expiresAt := now + ttlMs }

/-- SimpleCache.get: a missing key is a plain miss; an entry whose expiry
lies strictly in the past is deleted and reported as a miss; otherwise the
stored value is returned.  The returned pair carries the possibly updated
map. -/
def cacheGet (c : Cache α) (key : String) (now : Nat) : Option α × Cache α :=
  match c.find? (fun p => p.fst = key) with
  | Option.none => (Option.none, c)
  | Option.some p =>
    if p.snd.expiresAt < now then (Option.none, cacheDelete c key)
    else (Option.some p.snd.value, c)

/-- The keys scanned as expired by one run of SimpleCache.cleanup. -/
def expiredKeys (c : Cache α) (now : Nat) : List String :=
  (c.filter (fun p => p.snd.expiresAt < now)).map Prod.fst

/-- SimpleCache.cleanup: iterates over the entries and deletes every key
whose entry has expired (now strictly past expiresAt). -/
def cacheCleanup (c : Cache α) (now : Nat) : Cache α :=
  (expiredKeys c now).foldl (fun acc k => cacheDelete acc k) c

/-! Batch executor, from the batch utils module. -/

/-- Index normalisation of Array.prototype.slice: a negative index counts
from the end and clamps at 0, a nonnegative one clamps at the length. -/
def jsSliceBound (len : Nat) (x : Int) : Nat :=
  if x < 0 then ((len : Int) + x).toNat else min x.toNat len

/-- Array.prototype.slice with a start and end index. -/
def jsSlice (xs : List α) (a b : Int) : List α :=
  (xs.drop (jsSliceBound xs.length a)).take
    (jsSliceBound xs.length b - jsSliceBound xs.length a)

/-- One write of a settled per-item operation into the result slots of
Promise.all: the value lands at the original index of the operation. -/
def raceWrite (slots : List (Option α)) (e : Nat × α) : List (Option α) :=
  slots.set e.fst (Option.some e.snd)

/-- The Promise.all result assembly: settle events, given in completion
order, each write their value at their original index into n slots. -/
def settleAll (n : Nat) (events : List (Nat × α)) : List (Option α) :=
  events.foldl raceWrite (List.replicate n Option.none)

/-- The loop of processBatch, fuelled: while the index is below the item
count, slice out the next batch, run it through Promise.all (order
preserving), append the batch results, advance the index by batchSize and
count the batch.  The source performs no validation of batchSize; a fuel of
none models a loop that has not terminated within the given budget. -/
def processBatchGo (f : α → β) (items : List α) (batchSize : Int) :
    Nat → Int → List β → Nat → Option (List β × Nat)
  | 0, _, _, _ => Option.none
  | fuel + 1, i, acc, count =>
    if i < (items.length : Int) then
      processBatchGo f items batchSize fuel (i + batchSize)
        (acc ++ (jsSlice items i (i + batchSize)).map f) (count + 1)
    else
      Option.some (acc, count)

/-- processBatch from the batch utils module, with enough fuel for any
terminating run (one unit per batch, at most one batch per item plus the
final test).  Returns the result list and the number of batches run, or
none when the loop does not terminate within that budget. -/
def processBatch (f : α → β) (items : List α) (batchSize : Int) :
    Option (List β × Nat) :=
  processBatchGo f items batchSize (items.length + 1) 0 [] 0

/-- Promise.all over the outcomes of the wrapped per-item calls of one
batch.  The wrapper in the source catches a per-item rejection, logs it
with the item context and rethrows it, so the outcome reaching Promise.all
is the outcome of processFn itself.  Promise.all resolves with the values
in input order when every call resolves, and rejects as soon as any call
rejects; the rejection reported here is the earliest in input order, input
order standing in for the abstracted completion schedule (no statement
below depends on which of several rejections is reported). -/
def exceptAll : List (Except ε β) → Except ε (List β)
  | [] => Except.ok []
  | r :: rs =>
    match r with
    | Except.error e => Except.error e
    | Except.ok v =>
      match exceptAll rs with
      | Except.error e => Except.error e
      | Except.ok vs => Except.ok (v :: vs)

/-- The loop of processBatch with the per-item rejection path of the source
represented: the per-item operation may reject, and a batch whose
Promise.all rejects makes the whole call reject at once — the await
rethrows, so no further batch runs; otherwise the batch results are
appended in order and the index advances by batchSize. -/
def processBatchEGo (f : α → Except ε β) (items : List α) (batchSize : Int) :
    Nat → Int → List β → Option (Except ε (List β))
  | 0, _, _ => Option.none
  | fuel + 1, i, acc =>
    if i < (items.length : Int) then
      match exceptAll ((jsSlice items i (i + batchSize)).map f) with
      | Except.error e => Option.some (Except.error e)
      | Except.ok batchResults =>
        processBatchEGo f items batchSize fuel (i + batchSize) (acc ++ batchResults)
    else
      Option.some (Except.ok acc)

/-- processBatch over a fallible per-item operation, with enough fuel for
any terminating run: the call resolves with the ordered result list,
rejects with the rejection that aborted it, or (none) fails to terminate
within the budget. -/
def processBatchE (f : α → Except ε β) (items : List α) (batchSize : Int) :
    Option (Except ε (List β)) :=
  processBatchEGo f items batchSize (items.length + 1) 0 []

/-- Ceiling division, used to state the batch count. -/
def ceilDiv (n b : Nat) : Nat := (n + b - 1) / b

/-- A connection state in the middle of an outage, two reconnect attempts
in, used to exercise the handlers on concrete inputs. -/
def midOutageState : ConnectionState :=
  { isConnected := false
    reconnectAttempts := 2
    lastHeartbeat := 0
    isPipeActive := true
    isShuttingDown := false }

/-- A connection state with the attempt counter at the configured bound. -/
def atBoundState : ConnectionState :=
  { isConnected := false
    reconnectAttempts := 3
    lastHeartbeat := 0
    isPipeActive := true
    isShuttingDown := false }

/-- A connection state after the shutdown latch has been set. -/
def latchedState : ConnectionState :=
  { isConnected := false
    reconnectAttempts := 3
    lastHeartbeat := 0
    isPipeActive := true
    isShuttingDown := true }

/-! Helper lemmas about the shutdown coordinator and the handlers. -/

theorem shutdown_attempts (s : ConnectionState) :
    (shutdown s).fst.reconnectAttempts = s.reconnectAttempts := by
  unfold shutdown; split <;> rfl

theorem shutdown_shuttingDown (s : ConnectionState) :
    (shutdown s).fst.isShuttingDown = true := by
  unfold shutdown; split
  · assumption
  · rfl

theorem shutdown_pipe (s : ConnectionState) :
    (shutdown s).fst.isPipeActive = s.isPipeActive := by
  unfold shutdown; split <;> rfl

theorem shutdown_connected (s : ConnectionState) :
    (shutdown s).fst.isConnected = s.isConnected := by
  unfold shutdown; split <;> rfl

theorem shutdown_fx_sched (s : ConnectionState) :
    (shutdown s).snd.scheduledReconnects = 0 := by
  unfold shutdown; split <;> rfl

theorem shutdown_of_latched (s : ConnectionState) (h : s.isShuttingDown = true) :
    shutdown s = (s, Fx.none) := by
  unfold shutdown; simp [h]

theorem shutdown_fx_exit (s : ConnectionState) (h : s.isShuttingDown = false) :
    (shutdown s).snd.exitCodes = [0] := by
  unfold shutdown; simp [h]

theorem shutdownMono_of_latched (s : ConnectionState) (h : s.isShuttingDown = true) :
    shutdownMono s = (s, Fx.none) := by
  unfold shutdownMono; simp [h]

theorem handlePipeError_epipe (s : ConnectionState) :
    handlePipeError "EPIPE" s =
      (true, (shutdown { s with isPipeActive := false }).fst,
       (shutdown { s with isPipeActive := false }).snd) := by
  unfold handlePipeError shutdown
  by_cases h : s.isShuttingDown = true <;> simp [h]

theorem handlePipeError_other (code : String) (s : ConnectionState) (h : ¬code = "EPIPE") :
    handlePipeError code s = (false, s, Fx.none) := by
  unfold handlePipeError; simp [h]

theorem onError_epipe (s : ConnectionState) :
    onError "EPIPE" s =
      ((shutdown { s with isPipeActive := false }).fst,
       (shutdown { s with isPipeActive := false }).snd) := by
  unfold onError; rw [handlePipeError_epipe]

theorem onError_increments (code : String) (s : ConnectionState) (hc : ¬code = "EPIPE")
    (hsd : s.isShuttingDown = false) (hlt : s.reconnectAttempts < MAX_RECONNECT_ATTEMPTS) :
    onError code s =
      ({ s with reconnectAttempts := s.reconnectAttempts + 1 },
       { scheduledReconnects := 1, channelCloses := 0, graceWaits := [], exitCodes := [] }) := by
  unfold onError; rw [handlePipeError_other code s hc]; simp [hsd, hlt]

theorem onError_at_bound (code : String) (s : ConnectionState) (hc : ¬code = "EPIPE")
    (hsd : s.isShuttingDown = false) (hge : MAX_RECONNECT_ATTEMPTS ≤ s.reconnectAttempts) :
    onError code s = shutdown s := by
  unfold onError; rw [handlePipeError_other code s hc]; simp [hsd, Nat.not_lt.mpr hge]

theorem onError_when_latched (code : String) (s : ConnectionState) (hc : ¬code = "EPIPE")
    (hsd : s.isShuttingDown = true) :
    onError code s = (s, Fx.none) := by
  unfold onError; rw [handlePipeError_other code s hc]; simp [hsd]

theorem onMessage_attempts (method : String) (now : Nat) (s : ConnectionState) :
    (onMessage method now s).reconnectAttempts = s.reconnectAttempts := by
  unfold onMessage; split_ifs <;> rfl

theorem onMessage_shuttingDown (method : String) (now : Nat) (s : ConnectionState) :
    (onMessage method now s).isShuttingDown = s.isShuttingDown := by
  unfold onMessage; split_ifs <;> rfl

/-- In one step the attempt counter either stays put or is incremented, the
latter only from strictly below the bound. -/
theorem step_attempts_cases (e : Event) (s : ConnectionState) :
    (step e s).fst.reconnectAttempts = s.reconnectAttempts ∨
      ((step e s).fst.reconnectAttempts = s.reconnectAttempts + 1 ∧
        s.reconnectAttempts < MAX_RECONNECT_ATTEMPTS) := by
  cases e with
  | transportError code =>
    by_cases hc : code = "EPIPE"
    · subst hc
      rw [step, onError_epipe]
      left
      rw [shutdown_attempts]
    · by_cases hsd : s.isShuttingDown = true
      · rw [step, onError_when_latched code s hc hsd]; left; rfl
      · replace hsd : s.isShuttingDown = false := by
          cases h : s.isShuttingDown
          · rfl
          · exact absurd h hsd
        by_cases hlt : s.reconnectAttempts < MAX_RECONNECT_ATTEMPTS
        · rw [step, onError_increments code s hc hsd hlt]; right; exact ⟨rfl, hlt⟩
        · rw [step, onError_at_bound code s hc hsd (Nat.not_lt.mp hlt)]
          left
          rw [shutdown_attempts]
  | reconnectTimer ok =>
    rw [step]
    unfold reconnectCallback
    split_ifs <;> left <;> first | rw [shutdown_attempts] | rfl
  | inboundMessage method now =>
    left
    rw [step]
    exact onMessage_attempts method now s
  | shutdownSignal =>
    left
    rw [step]
    exact shutdown_attempts s

theorem step_attempts_le (e : Event) (s : ConnectionState)
    (h : s.reconnectAttempts ≤ MAX_RECONNECT_ATTEMPTS) :
    (step e s).fst.reconnectAttempts ≤ MAX_RECONNECT_ATTEMPTS := by
  rcases step_attempts_cases e s with h1 | ⟨h1, h2⟩ <;> omega

theorem run_attempts_le (es : List Event) (s : ConnectionState)
    (h : s.reconnectAttempts ≤ MAX_RECONNECT_ATTEMPTS) :
    (run s es).fst.reconnectAttempts ≤ MAX_RECONNECT_ATTEMPTS := by
  induction es generalizing s with
  | nil => exact h
  | cons e es ih => exact ih (step e s).fst (step_attempts_le e s h)

/-- C1: reconnection is bounded.  From the initial state, no event sequence
drives reconnectAttempts above MAX_RECONNECT_ATTEMPTS; a non-pipe transport
error below the bound (while not shutting down) increments the counter and
arms exactly one reconnect timer; at or above the bound it initiates
shutdown, scheduling nothing; and a failed reconnect attempt at the bound
likewise shuts down. -/
theorem c1_reconnection_bounded :
    (∀ (t0 : Nat) (es : List Event),
        (run (initialState t0) es).fst.reconnectAttempts ≤ MAX_RECONNECT_ATTEMPTS) ∧
    (∀ (code : String) (s : ConnectionState), ¬code = "EPIPE" → s.isShuttingDown = false →
        (s.reconnectAttempts < MAX_RECONNECT_ATTEMPTS →
          onError code s =
            ({ s with reconnectAttempts := s.reconnectAttempts + 1 },
             { scheduledReconnects := 1, channelCloses := 0, graceWaits := [], exitCodes := [] })) ∧
        (MAX_RECONNECT_ATTEMPTS ≤ s.reconnectAttempts →
          (onError code s).fst.isShuttingDown = true ∧
          (onError code s).snd.scheduledReconnects = 0 ∧
          (onError code s).snd.exitCodes = [0])) ∧
    (∀ s : ConnectionState, s.isPipeActive = true → s.isShuttingDown = false →
        MAX_RECONNECT_ATTEMPTS ≤ s.reconnectAttempts →
        reconnectCallback false s = shutdown s ∧
        (reconnectCallback false s).fst.isShuttingDown = true ∧
        (reconnectCallback false s).snd.exitCodes = [0]) := by
  refine ⟨fun t0 es => run_attempts_le es (initialState t0) (Nat.zero_le _), ?_, ?_⟩
  · intro code s hc hsd
    constructor
    · intro hlt
      exact onError_increments code s hc hsd hlt
    · intro hge
      rw [onError_at_bound code s hc hsd hge]
      exact ⟨shutdown_shuttingDown s, shutdown_fx_sched s, shutdown_fx_exit s hsd⟩
  · intro s hp hsd hge
    have heq : reconnectCallback false s = shutdown s := by
      unfold reconnectCallback
      simp [hp, hge]
    exact ⟨heq, by rw [heq]; exact shutdown_shuttingDown s,
      by rw [heq]; exact shutdown_fx_exit s hsd⟩

/-- Witness for C1 at concrete inputs: four consecutive non-pipe errors
from the initial state stay within the bound; a non-pipe error two attempts
in increments to three; at the bound both a further non-pipe error and a
failed reconnect attempt shut the session down. -/
theorem c1_reconnection_bounded_witness :
    (run (initialState 0) [Event.transportError "ECONNRESET", Event.transportError "ECONNRESET",
        Event.transportError "ECONNRESET", Event.transportError "ECONNRESET"]).fst.reconnectAttempts
      ≤ MAX_RECONNECT_ATTEMPTS ∧
    onError "ECONNRESET" midOutageState =
      ({ midOutageState with reconnectAttempts := midOutageState.reconnectAttempts + 1 },
       { scheduledReconnects := 1, channelCloses := 0, graceWaits := [], exitCodes := [] }) ∧
    (onError "ECONNRESET" atBoundState).fst.isShuttingDown = true ∧
    (reconnectCallback false atBoundState).fst.isShuttingDown = true := by
  refine ⟨c1_reconnection_bounded.1 0 _, ?_, ?_, ?_⟩
  · exact (c1_reconnection_bounded.2.1 "ECONNRESET" midOutageState (by decide) (by decide)).1
      (by decide)
  · exact ((c1_reconnection_bounded.2.1 "ECONNRESET" atBoundState (by decide) (by decide)).2
      (by decide)).1
  · exact (c1_reconnection_bounded.2.2 atBoundState (by decide) (by decide) (by decide)).2.1

/-- C2 counterexample: a successful reconnect (the armed timer fires with
the pipe active and connect succeeding) transitions the session to
Connected but leaves reconnectAttempts at 2 rather than resetting it to 0,
and an observed initialize handshake message likewise leaves the counter
untouched. -/
theorem c2_reset_counterexample :
    (reconnectCallback true midOutageState).fst.isConnected = true ∧
    ¬(reconnectCallback true midOutageState).fst.reconnectAttempts = 0 ∧
    (reconnectCallback true midOutageState).fst.reconnectAttempts = 2 ∧
    (onMessage "initialize" 5 midOutageState).isConnected = true ∧
    ¬(onMessage "initialize" 5 midOutageState).reconnectAttempts = 0 := by
  decide

/-- C2 amended: on a successful reconnection the session sets isConnected
(and on an initialize handshake also refreshes lastHeartbeat), but
reconnectAttempts is never reset: no handler ever decreases it, so it is
monotone along every event. -/
theorem c2_connected_no_reset :
    (∀ (e : Event) (s : ConnectionState),
        s.reconnectAttempts ≤ (step e s).fst.reconnectAttempts) ∧
    (∀ s : ConnectionState, s.isPipeActive = true →
        reconnectCallback true s = ({ s with isConnected := true }, Fx.none)) ∧
    (∀ (s : ConnectionState) (now : Nat),
        onMessage "initialize" now s = { s with isConnected := true, lastHeartbeat := now } ∧
        onMessage "initialized" now s = { s with isConnected := true }) := by
  refine ⟨fun e s => ?_, fun s hp => ?_, fun s now => ?_⟩
  · rcases step_attempts_cases e s with h1 | ⟨h1, _⟩ <;> omega
  · unfold reconnectCallback
    simp [hp]
  · constructor
    · unfold onMessage
      simp
    · unfold onMessage
      simp

/-- Witness for C2 amended at concrete inputs. -/
theorem c2_connected_no_reset_witness :
    midOutageState.reconnectAttempts
        ≤ (step (Event.reconnectTimer true) midOutageState).fst.reconnectAttempts ∧
    reconnectCallback true midOutageState = ({ midOutageState with isConnected := true }, Fx.none) ∧
    onMessage "initialize" 9 midOutageState =
      { midOutageState with isConnected := true, lastHeartbeat := 9 } :=
  ⟨c2_connected_no_reset.1 (Event.reconnectTimer true) midOutageState,
   c2_connected_no_reset.2.1 midOutageState (by decide),
   (c2_connected_no_reset.2.2 midOutageState 9).1⟩

/-- C3: broken-pipe errors are never retried.  An EPIPE transport error
deactivates the pipe, lands in the shutdown latch without touching
reconnectAttempts and without arming a reconnect timer; and a reconnect
timer that fires with the pipe inactive runs shutdown instead of
connecting, leaving isConnected unchanged. -/
theorem c3_pipe_errors_never_retried :
    (∀ s : ConnectionState,
        (onError "EPIPE" s).fst.isPipeActive = false ∧
        (onError "EPIPE" s).fst.isShuttingDown = true ∧
        (onError "EPIPE" s).fst.reconnectAttempts = s.reconnectAttempts ∧
        (onError "EPIPE" s).snd.scheduledReconnects = 0) ∧
    (∀ (s : ConnectionState) (ok : Bool), s.isPipeActive = false →
        reconnectCallback ok s = shutdown s ∧
        (reconnectCallback ok s).fst.isShuttingDown = true ∧
        (reconnectCallback ok s).fst.isConnected = s.isConnected) := by
  constructor
  · intro s
    rw [onError_epipe]
    refine ⟨?_, shutdown_shuttingDown _, ?_, shutdown_fx_sched _⟩
    · rw [shutdown_pipe]
    · rw [shutdown_attempts]
  · intro s ok hp
    have heq : reconnectCallback ok s = shutdown s := by
      unfold reconnectCallback
      simp [hp]
    refine ⟨heq, ?_, ?_⟩
    · rw [heq]; exact shutdown_shuttingDown s
    · rw [heq]; exact shutdown_connected s

/-- Witness for C3 at concrete inputs: an EPIPE at two attempts, and a
timer firing after the pipe has gone. -/
theorem c3_pipe_errors_never_retried_witness :
    (onError "EPIPE" midOutageState).fst.isShuttingDown = true ∧
    (onError "EPIPE" midOutageState).snd.scheduledReconnects = 0 ∧
    (reconnectCallback true { midOutageState with isPipeActive := false }).fst.isShuttingDown
      = true :=
  ⟨(c3_pipe_errors_never_retried.1 midOutageState).2.1,
   (c3_pipe_errors_never_retried.1 midOutageState).2.2.2,
   (c3_pipe_errors_never_retried.2 { midOutageState with isPipeActive := false } true
      (by decide)).2.1⟩

theorem Fx.merge_none_right (a : Fx) : Fx.merge a Fx.none = a := by
  simp [Fx.merge, Fx.none]

theorem fireTrigger_latched (t : Trigger) (s : ConnectionState) (h : s.isShuttingDown = true) :
    (fireTrigger t s).fst.isShuttingDown = true ∧ (fireTrigger t s).snd = Fx.none := by
  cases t <;> simp only [fireTrigger] <;>
    first
      | exact ⟨by rw [shutdownMono_of_latched s h]; exact h, by rw [shutdownMono_of_latched s h]⟩
      | · rw [if_pos (by simpa using h)]
          exact ⟨by simpa using h, rfl⟩

theorem runTriggers_latched (ts : List Trigger) (s : ConnectionState)
    (h : s.isShuttingDown = true) : (runTriggers s ts).snd = Fx.none := by
  induction ts generalizing s with
  | nil => rfl
  | cons t ts ih =>
    show Fx.merge (fireTrigger t s).snd (runTriggers (fireTrigger t s).fst ts).snd = Fx.none
    rw [(fireTrigger_latched t s h).2, ih _ (fireTrigger_latched t s h).1]
    rfl

/-- C4 counterexample: a shutdown triggered by a pipe closure from the
fresh state performs its single teardown without any channel close (the
pipe is marked inactive before the teardown runs, so transport.close is
skipped), contradicting the claimed one channel close per teardown. -/
theorem c4_close_counterexample :
    (runTriggers (initialState 0) [Trigger.pipeClosure]).snd.channelCloses = 0 ∧
    (runTriggers (initialState 0) [Trigger.pipeClosure]).snd.graceWaits
      = [SHUTDOWN_GRACE_PERIOD_MS] ∧
    (runTriggers (initialState 0) [Trigger.pipeClosure]).snd.exitCodes = [0] := by
  decide

/-- C4 amended: shutdown is idempotent.  A second invocation while the
latch is set is a no-op, so any nonempty trigger sequence produces exactly
one teardown: one grace wait of SHUTDOWN_GRACE_PERIOD_MS, one exit with
status 0, and exactly one channel close unless the first trigger is a pipe
closure, in which case the close is skipped. -/
theorem c4_shutdown_idempotent :
    (∀ s : ConnectionState, s.isShuttingDown = true →
        shutdownMono s = (s, Fx.none) ∧ shutdown s = (s, Fx.none)) ∧
    (∀ (t0 : Nat) (t : Trigger) (ts : List Trigger),
        (runTriggers (initialState t0) (t :: ts)).snd.graceWaits = [SHUTDOWN_GRACE_PERIOD_MS] ∧
        (runTriggers (initialState t0) (t :: ts)).snd.exitCodes = [0] ∧
        (runTriggers (initialState t0) (t :: ts)).snd.channelCloses =
          (if t = Trigger.pipeClosure then 0 else 1)) := by
  constructor
  · intro s h
    exact ⟨shutdownMono_of_latched s h, shutdown_of_latched s h⟩
  · intro t0 t ts
    have hfx : (fireTrigger t (initialState t0)).snd =
        { scheduledReconnects := 0
          channelCloses := if t = Trigger.pipeClosure then 0 else 1
          graceWaits := [SHUTDOWN_GRACE_PERIOD_MS]
          exitCodes := [0] } := by
      cases t <;> simp [fireTrigger, shutdownMono, initialState]
    have hlatch : (fireTrigger t (initialState t0)).fst.isShuttingDown = true := by
      cases t <;> simp [fireTrigger, shutdownMono, initialState]
    show (runTriggers (initialState t0) (t :: ts)).snd.graceWaits = _ ∧ _
    have : (runTriggers (initialState t0) (t :: ts)).snd =
        Fx.merge (fireTrigger t (initialState t0)).snd
          (runTriggers (fireTrigger t (initialState t0)).fst ts).snd := rfl
    rw [this, runTriggers_latched ts _ hlatch, Fx.merge_none_right, hfx]
    exact ⟨rfl, rfl, rfl⟩

/-- Witness for C4 at concrete inputs: a SIGINT immediately followed by an
uncaught exception performs exactly one close, one grace wait and one exit;
the second trigger is a no-op on the latched state. -/
theorem c4_shutdown_idempotent_witness :
    shutdownMono latchedState = (latchedState, Fx.none) ∧
    (runTriggers (initialState 0)
        [Trigger.sigint, Trigger.uncaughtException]).snd.graceWaits
      = [SHUTDOWN_GRACE_PERIOD_MS] ∧
    (runTriggers (initialState 0) [Trigger.sigint, Trigger.uncaughtException]).snd.exitCodes
      = [0] ∧
    (runTriggers (initialState 0) [Trigger.sigint, Trigger.uncaughtException]).snd.channelCloses
      = 1 := by
  refine ⟨(c4_shutdown_idempotent.1 latchedState (by decide)).1, ?_⟩
  have h := c4_shutdown_idempotent.2 0 Trigger.sigint [Trigger.uncaughtException]
  exact ⟨h.1, h.2.1, h.2.2⟩

/-- C5 counterexample: with the shutdown latch already set, an inbound
initialize message still mutates the connection state, flipping isConnected
and refreshing lastHeartbeat — so the latch is not terminal for every
field. -/
theorem c5_latch_counterexample :
    latchedState.isShuttingDown = true ∧
    latchedState.isConnected = false ∧
    (onMessage "initialize" 7 latchedState).isConnected = true ∧
    latchedState.lastHeartbeat = 0 ∧
    (onMessage "initialize" 7 latchedState).lastHeartbeat = 7 := by
  decide

/-- C5 amended: the shutdown latch is permanent and freezes the retry
machinery — after it is set, every event leaves isShuttingDown true, never
changes reconnectAttempts, and produces no effect (no reconnect timer, no
close, no grace wait, no exit) — but isConnected, lastHeartbeat and
isPipeActive can still be mutated by late messages, reconnects and pipe
errors. -/
theorem c5_latch_frozen :
    ∀ (e : Event) (s : ConnectionState), s.isShuttingDown = true →
      (step e s).fst.isShuttingDown = true ∧
      (step e s).fst.reconnectAttempts = s.reconnectAttempts ∧
      (step e s).snd = Fx.none := by
  intro e s h
  cases e with
  | transportError code =>
    by_cases hc : code = "EPIPE"
    · subst hc
      rw [step, onError_epipe]
      have h1 : ({ s with isPipeActive := false } : ConnectionState).isShuttingDown = true := h
      rw [shutdown_of_latched _ h1]
      exact ⟨h, rfl, rfl⟩
    · rw [step, onError_when_latched code s hc h]
      exact ⟨h, rfl, rfl⟩
  | reconnectTimer ok =>
    rw [step]
    unfold reconnectCallback
    split_ifs <;>
      first
        | (rw [shutdown_of_latched s h]; exact ⟨h, rfl, rfl⟩)
        | exact ⟨h, rfl, rfl⟩
  | inboundMessage method now =>
    rw [step]
    exact ⟨by rw [onMessage_shuttingDown]; exact h, onMessage_attempts method now s, rfl⟩
  | shutdownSignal =>
    rw [step, shutdown_of_latched s h]
    exact ⟨h, rfl, rfl⟩

/-- Witness for C5 amended at a concrete input: a late transport error on
the latched state leaves the latch set, the counter frozen and produces no
effect. -/
theorem c5_latch_frozen_witness :
    (step (Event.transportError "ECONNRESET") latchedState).fst.isShuttingDown = true ∧
    (step (Event.transportError "ECONNRESET") latchedState).fst.reconnectAttempts
      = latchedState.reconnectAttempts ∧
    (step (Event.transportError "ECONNRESET") latchedState).snd = Fx.none :=
  c5_latch_frozen (Event.transportError "ECONNRESET") latchedState (by decide)

theorem promiseRace_left (p : JsPromise α) (ms : Nat) (ctx : String)
    (h : p.settleAt < ms) : promiseRace p (createTimeout α ms ctx) = p := by
  unfold promiseRace createTimeout
  simp [Nat.le_of_lt h]

theorem promiseRace_right (p : JsPromise α) (ms : Nat) (ctx : String)
    (h : ms < p.settleAt) :
    promiseRace p (createTimeout α ms ctx) = createTimeout α ms ctx := by
  unfold promiseRace
  exact if_neg (Nat.not_le.mpr h)

/-- C6: the timeout guard races correctly.  A promise settling strictly
before the deadline has its value returned unchanged; if the deadline
elapses first the guard rejects with the timeout message, which contains
both the deadline in milliseconds and the context label as substrings; the
default deadline API_TIMEOUT_MS is 30000 ms and a call omitting the
deadline uses it; and no execution path produces a cancellation effect on
the losing operation. -/
theorem c6_timeout_guard :
    (∀ (α : Type) (p : JsPromise α) (ms : Nat) (v : α) (ctx : String),
        p.settleAt < ms → p.outcome = Except.ok v →
        withTimeout p ms ctx = (Except.ok v, [])) ∧
    (∀ (α : Type) (p : JsPromise α) (ms : Nat) (ctx : String), ms < p.settleAt →
        (withTimeout p ms ctx).fst
          = Except.error ("Timeout after " ++ toString ms ++ "ms: " ++ ctx) ∧
        strIncludes ("Timeout after " ++ toString ms ++ "ms: " ++ ctx) (toString ms) = true ∧
        strIncludes ("Timeout after " ++ toString ms ++ "ms: " ++ ctx) ctx = true) ∧
    API_TIMEOUT_MS = 30000 ∧
    (∀ (α : Type) (p : JsPromise α) (ctx : String),
        withTimeoutNoDeadline p ctx = withTimeout p 30000 ctx) ∧
    (∀ (α : Type) (p : JsPromise α) (ms : Nat) (ctx : String),
        ¬GuardFx.cancelled ∈ (withTimeout p ms ctx).snd) := by
  refine ⟨?_, ?_, rfl, fun α p ctx => rfl, ?_⟩
  · intro α p ms v ctx hlt hok
    unfold withTimeout
    rw [promiseRace_left p ms ctx hlt, hok]
  · intro α p ms ctx hgt
    refine ⟨?_, ?_, ?_⟩
    · unfold withTimeout
      rw [promiseRace_right p ms ctx hgt]
      show (if strIncludes ("Timeout after " ++ toString ms ++ "ms: " ++ ctx) "Timeout after"
          then _ else _ : Except String α × List GuardFx).fst = _
      split_ifs <;> rfl
    · unfold strIncludes
      rw [decide_eq_true_eq]
      exact ⟨"Timeout after ".data, "ms: ".data ++ ctx.data,
        by simp [String.data_append, List.append_assoc]⟩
    · unfold strIncludes
      rw [decide_eq_true_eq]
      exact ⟨"Timeout after ".data ++ (toString ms).data ++ "ms: ".data, [],
        by simp [String.data_append, List.append_assoc]⟩
  · intro α p ms ctx
    unfold withTimeout
    cases houtcome : (promiseRace p (createTimeout α ms ctx)).outcome with
    | ok v => simp
    | error msg =>
      dsimp only
      split_ifs <;> simp

/-- Witness for C6 at concrete inputs: a 5 ms promise under a 10 ms
deadline returns its value; a 50 ms promise under a 10 ms deadline rejects
with the timeout message; no cancellation effect is produced. -/
theorem c6_timeout_guard_witness :
    withTimeout (JsPromise.mk 5 (Except.ok (42 : Nat))) 10 "Linear API connection check"
      = (Except.ok 42, []) ∧
    (withTimeout (JsPromise.mk 50 (Except.ok (42 : Nat))) 10 "Linear API connection check").fst
      = Except.error
          ("Timeout after " ++ toString 10 ++ "ms: " ++ "Linear API connection check") ∧
    ¬GuardFx.cancelled ∈ (withTimeout (JsPromise.mk 50 (Except.ok (42 : Nat))) 10 "x").snd :=
  ⟨c6_timeout_guard.1 Nat (JsPromise.mk 5 (Except.ok 42)) 10 42 "Linear API connection check"
      (by decide) rfl,
   (c6_timeout_guard.2.1 Nat (JsPromise.mk 50 (Except.ok 42)) 10 "Linear API connection check"
      (by decide)).1,
   c6_timeout_guard.2.2.2.2 Nat (JsPromise.mk 50 (Except.ok 42)) 10 "x"⟩

theorem find?_mapSet (c : Cache α) (k : String) (e : CacheEntry α) :
    (mapSet c k e).find? (fun p => p.fst = k) = Option.some (k, e) := by
  induction c with
  | nil => simp [mapSet]
  | cons p rest ih =>
    by_cases h : p.fst = k
    · simp [mapSet, h]
    · simp [mapSet, h, ih]

theorem find?_cacheDelete (c : Cache α) (k : String) :
    (cacheDelete c k).find? (fun p => p.fst = k) = Option.none := by
  rw [List.find?_eq_none]
  intro p hp
  have := (List.mem_filter.mp hp).2
  simp only [decide_eq_true_eq] at this
  simp [this]

/-- C7: TTL correctness of get after set.  Setting then immediately getting
returns the value and leaves the map unchanged; a get strictly after the
expiry returns a miss and deletes the entry (a subsequent lookup finds
nothing); and a get of an absent key is a plain miss that leaves the map
unchanged — never an error. -/
theorem c7_cache_get_set :
    (∀ (α : Type) (c : Cache α) (k : String) (v : α) (ttl now : Nat),
        cacheGet (cacheSet c k v ttl now) k now = (Option.some v, cacheSet c k v ttl now)) ∧
    (∀ (α : Type) (c : Cache α) (k : String) (v : α) (ttl now later : Nat),
        now + ttl < later →
        (cacheGet (cacheSet c k v ttl now) k later).fst = Option.none ∧
        (cacheGet (cacheSet c k v ttl now) k later).snd
          = cacheDelete (cacheSet c k v ttl now) k ∧
        ((cacheGet (cacheSet c k v ttl now) k later).snd.find? (fun p => p.fst = k))
          = Option.none) ∧
    (∀ (α : Type) (c : Cache α) (k : String) (now : Nat),
        c.find? (fun p => p.fst = k) = Option.none →
        cacheGet c k now = (Option.none, c)) := by
  refine ⟨?_, ?_, ?_⟩
  · intro α c k v ttl now
    unfold cacheGet cacheSet
    rw [find?_mapSet]
    simp
  · intro α c k v ttl now later h
    unfold cacheGet cacheSet
    rw [find?_mapSet]
    simp only [h, if_pos]
    refine ⟨trivial, trivial, ?_⟩
    exact find?_cacheDelete (mapSet c k { value := v, timestamp := now, expiresAt := now + ttl }) k
  · intro α c k now h
    unfold cacheGet
    rw [h]

/-- Witness for C7 at concrete inputs: set at time 100 with ttl 10, get at
100 hits, get at 111 misses and evicts; a lookup of an absent key misses
without touching the map. -/
theorem c7_cache_get_set_witness :
    cacheGet (cacheSet ([] : Cache Nat) "team" 7 10 100) "team" 100
      = (Option.some 7, cacheSet ([] : Cache Nat) "team" 7 10 100) ∧
    (cacheGet (cacheSet ([] : Cache Nat) "team" 7 10 100) "team" 111).fst = Option.none ∧
    cacheGet ([] : Cache Nat) "team" 0 = (Option.none, []) :=
  ⟨c7_cache_get_set.1 Nat [] "team" 7 10 100,
   (c7_cache_get_set.2.1 Nat [] "team" 7 10 100 111 (by decide)).1,
   c7_cache_get_set.2.2 Nat [] "team" 0 (by decide)⟩

theorem foldl_cacheDelete (ks : List String) (c : Cache α) :
    ks.foldl (fun acc k => cacheDelete acc k) c
      = c.filter (fun p => ¬ks.contains p.fst) := by
  induction ks generalizing c with
  | nil => simp
  | cons k ks ih =>
    rw [List.foldl_cons, ih]
    unfold cacheDelete
    rw [List.filter_filter]
    apply List.filter_congr
    intro p _
    by_cases h1 : p.fst = k <;> by_cases h2 : ks.contains p.fst = true <;> simp [h1, h2]

theorem mem_expiredKeys_iff (c : Cache α) (now : Nat) (hnd : (c.map Prod.fst).Nodup)
    (p : String × CacheEntry α) (hp : p ∈ c) :
    p.fst ∈ expiredKeys c now ↔ p.snd.expiresAt < now := by
  unfold expiredKeys
  simp only [List.mem_map, List.mem_filter, decide_eq_true_eq]
  constructor
  · rintro ⟨q, ⟨hqc, hqe⟩, hqf⟩
    have hpq : q = p := List.inj_on_of_nodup_map hnd hqc hp hqf
    rw [← hpq]
    exact hqe
  · intro h
    exact ⟨p, ⟨hp, h⟩, rfl⟩

theorem cacheCleanup_eq_filter (c : Cache α) (now : Nat)
    (hnd : (c.map Prod.fst).Nodup) :
    cacheCleanup c now = c.filter (fun p => ¬p.snd.expiresAt < now) := by
  unfold cacheCleanup
  rw [foldl_cacheDelete]
  apply List.filter_congr
  intro p hp
  have hiff := mem_expiredKeys_iff c now hnd p hp
  by_cases h : p.snd.expiresAt < now
  · simp [h, hiff.mpr h]
  · have : ¬p.fst ∈ expiredKeys c now := fun hmem => h (hiff.mp hmem)
    simp [h, this]

/-- C8: one cleanup sweep evicts exactly the expired entries.  For a map
with duplicate-free keys (an invariant of the JavaScript Map backing the
cache), cleanup equals the filter keeping the non-expired entries: every
entry with expiresAt strictly before now is removed, and every other entry
survives unchanged (same value, timestamp and expiry, in order). -/
theorem c8_cleanup_exact :
    ∀ (α : Type) (c : Cache α) (now : Nat), (c.map Prod.fst).Nodup →
      cacheCleanup c now = c.filter (fun p => ¬p.snd.expiresAt < now) ∧
      (∀ p ∈ c, p.snd.expiresAt < now → ¬p ∈ cacheCleanup c now) ∧
      (∀ p ∈ c, ¬p.snd.expiresAt < now → p ∈ cacheCleanup c now) ∧
      (∀ p ∈ cacheCleanup c now, p ∈ c ∧ ¬p.snd.expiresAt < now) := by
  intro α c now hnd
  have heq := cacheCleanup_eq_filter c now hnd
  refine ⟨heq, ?_, ?_, ?_⟩
  · intro p hp hexp hmem
    rw [heq] at hmem
    have := (List.mem_filter.mp hmem).2
    simp only [decide_eq_true_eq] at this
    exact this hexp
  · intro p hp hlive
    rw [heq]
    exact List.mem_filter.mpr ⟨hp, by simpa using hlive⟩
  · intro p hmem
    rw [heq] at hmem
    have h := List.mem_filter.mp hmem
    exact ⟨h.1, by simpa using h.2⟩

/-- Witness for C8 at a concrete input: at time 10 the sweep drops the
entry expiring at 5 and keeps the one expiring at 50 untouched. -/
theorem c8_cleanup_exact_witness :
    cacheCleanup [("a", CacheEntry.mk (1 : Nat) 0 5), ("b", CacheEntry.mk 2 0 50)] 10
      = [("b", CacheEntry.mk 2 0 50)] ∧
    ¬("a", CacheEntry.mk (1 : Nat) 0 5)
        ∈ cacheCleanup [("a", CacheEntry.mk (1 : Nat) 0 5), ("b", CacheEntry.mk 2 0 50)] 10 ∧
    ("b", CacheEntry.mk (2 : Nat) 0 50)
        ∈ cacheCleanup [("a", CacheEntry.mk (1 : Nat) 0 5), ("b", CacheEntry.mk 2 0 50)] 10 := by
  have h := c8_cleanup_exact Nat
    [("a", CacheEntry.mk 1 0 5), ("b", CacheEntry.mk 2 0 50)] 10 (by decide)
  refine ⟨?_, ?_, ?_⟩
  · rw [h.1]
    decide
  · exact h.2.1 _ (by decide) (by decide)
  · exact h.2.2.1 _ (by decide) (by decide)

/-! Helper lemmas for the batch executor. -/

theorem foldl_raceWrite_not_mem (events : List (Nat × α)) (slots : List (Option α)) (i : Nat)
    (h : ¬i ∈ events.map Prod.fst) :
    (events.foldl raceWrite slots)[i]? = slots[i]? := by
  induction events generalizing slots with
  | nil => rfl
  | cons e es ih =>
    rw [List.foldl_cons]
    have hne : e.fst ≠ i := by
      intro heq
      exact h (by rw [← heq]; simp)
    rw [ih (raceWrite slots e) (fun hm => h (by simp [hm]))]
    exact List.getElem?_set_ne hne

theorem foldl_raceWrite_length (events : List (Nat × α)) (slots : List (Option α)) :
    (events.foldl raceWrite slots).length = slots.length := by
  induction events generalizing slots with
  | nil => rfl
  | cons e es ih =>
    rw [List.foldl_cons, ih]
    exact List.length_set slots e.fst (Option.some e.snd)

theorem foldl_raceWrite_mem (events : List (Nat × α)) (slots : List (Option α))
    (hnd : (events.map Prod.fst).Nodup) (i : Nat) (v : α) (hmem : (i, v) ∈ events)
    (hlen : i < slots.length) :
    (events.foldl raceWrite slots)[i]? = Option.some (Option.some v) := by
  induction events generalizing slots with
  | nil => cases hmem
  | cons e es ih =>
    rw [List.foldl_cons]
    have hcons : (e :: es).map Prod.fst = e.fst :: es.map Prod.fst := rfl
    rw [hcons] at hnd
    rcases List.mem_cons.mp hmem with heq | htail
    · subst heq
      have hni : ¬i ∈ es.map Prod.fst := (List.nodup_cons.mp hnd).1
      rw [foldl_raceWrite_not_mem es (raceWrite slots (i, v)) i hni]
      exact List.getElem?_set_self hlen
    · exact ih (raceWrite slots e) (List.nodup_cons.mp hnd).2 htail
        (by rw [show (raceWrite slots e).length = slots.length from
          List.length_set slots e.fst (Option.some e.snd)]; exact hlen)

/-- However the per-item operations interleave their completions, the
assembled Promise.all result is the value list in input order. -/
theorem settleAll_of_perm (xs : List α) (events : List (Nat × α))
    (hperm : events.Perm xs.enum) :
    settleAll xs.length events = xs.map Option.some := by
  have hnd : (events.map Prod.fst).Nodup := by
    have h2 : (xs.enum.map Prod.fst).Nodup := by
      rw [List.enum_map_fst]
      exact List.nodup_range xs.length
    exact ((hperm.map Prod.fst).nodup_iff).mpr h2
  apply List.ext_getElem?
  intro i
  by_cases hi : i < xs.length
  · have hmem : (i, xs.get ⟨i, hi⟩) ∈ events := by
      rw [hperm.mem_iff]
      rw [List.mem_enum_iff_getElem?]
      exact List.getElem?_eq_getElem hi
    unfold settleAll
    rw [foldl_raceWrite_mem events _ hnd i _ hmem
      (by rw [List.length_replicate]; exact hi)]
    rw [List.getElem?_map, List.getElem?_eq_getElem hi]
    rfl
  · have h1 : (settleAll xs.length events)[i]? = Option.none := by
      apply List.getElem?_eq_none
      unfold settleAll
      rw [foldl_raceWrite_length, List.length_replicate]
      omega
    have h2 : (xs.map Option.some)[i]? = Option.none := by
      apply List.getElem?_eq_none
      rw [List.length_map]
      omega
    rw [h1, h2]

/-- For a nonnegative index at distance bs from a split point, slice
extracts the next batch of bs elements. -/
theorem jsSlice_batch (pre post : List α) (bs : Int) (hbs : 1 ≤ bs) :
    jsSlice (pre ++ post) (pre.length : Int) ((pre.length : Int) + bs)
      = post.take bs.toNat := by
  unfold jsSlice jsSliceBound
  rw [List.length_append]
  rw [if_neg (by omega : ¬((pre.length : Int) < 0))]
  rw [if_neg (by omega : ¬((pre.length : Int) + bs < 0))]
  have h3 : min (pre.length : Int).toNat (pre.length + post.length) = pre.length := by omega
  have h4 : min ((pre.length : Int) + bs).toNat (pre.length + post.length)
      = pre.length + min bs.toNat post.length := by omega
  rw [h3, h4]
  rw [(by omega : pre.length + min bs.toNat post.length - pre.length
    = min bs.toNat post.length)]
  rw [List.drop_left]
  rcases Nat.le_total bs.toNat post.length with h | h
  · rw [Nat.min_eq_left h]
  · rw [Nat.min_eq_right h, List.take_length, List.take_of_length_le h]

theorem ceilDiv_zero (b : Nat) : ceilDiv 0 b = 0 := by
  unfold ceilDiv
  rcases Nat.eq_zero_or_pos b with h | h
  · rw [h]
  · rw [Nat.div_eq_of_lt (by omega)]

theorem ceilDiv_one_of_le (n b : Nat) (h1 : 1 ≤ n) (h2 : n ≤ b) : ceilDiv n b = 1 := by
  unfold ceilDiv
  rw [(by omega : n + b - 1 = (n - 1) + b), Nat.add_div_right _ (by omega),
    Nat.div_eq_of_lt (by omega)]

theorem ceilDiv_step (n b : Nat) (h1 : 1 ≤ b) (h2 : b < n) :
    ceilDiv n b = 1 + ceilDiv (n - b) b := by
  unfold ceilDiv
  rw [(by omega : n + b - 1 = (n - 1) + b), Nat.add_div_right _ (by omega)]
  rw [(by omega : n - b + b - 1 = (n - b - 1) + b), Nat.add_div_right _ (by omega)]
  rw [(by omega : n - 1 = (n - b - 1) + b), Nat.add_div_right _ (by omega)]
  omega

/-- Completeness of the batch loop for a positive batch size: from a split
point, with fuel exceeding the number of remaining items, the loop
consumes the tail batch by batch, appends the mapped results in order, and
counts one batch per ceiling-division step. -/
theorem processBatchGo_complete (f : α → β) (bs : Int) (hbs : 1 ≤ bs) :
    ∀ (fuel : Nat) (post pre : List α) (acc : List β) (count : Nat),
      post.length + 1 ≤ fuel →
      processBatchGo f (pre ++ post) bs fuel (pre.length : Int) acc count
        = Option.some (acc ++ post.map f, count + ceilDiv post.length bs.toNat) := by
  intro fuel
  induction fuel with
  | zero =>
    intro post pre acc count h
    omega
  | succ fuel ih =>
    intro post pre acc count hfuel
    cases post with
    | nil =>
      simp only [processBatchGo]
      rw [if_neg (by rw [List.append_nil]; omega)]
      simp [ceilDiv_zero]
    | cons x rest =>
      have hlen : (x :: rest).length = rest.length + 1 := rfl
      simp only [processBatchGo]
      rw [if_pos (by rw [List.length_append]; push_cast; omega)]
      rw [jsSlice_batch pre (x :: rest) bs hbs]
      rcases Nat.lt_or_ge (x :: rest).length (bs.toNat + 1) with hble | hbgt
      · -- the final batch: everything left fits in one batch
        rw [List.take_of_length_le (by omega : (x :: rest).length ≤ bs.toNat)]
        have hfuel1 : 1 ≤ fuel := by omega
        rcases Nat.exists_eq_add_of_le hfuel1 with ⟨g, hg⟩
        rw [(by omega : fuel = g + 1)]
        simp only [processBatchGo]
        rw [if_neg (by rw [List.length_append]; push_cast; omega)]
        rw [ceilDiv_one_of_le (x :: rest).length bs.toNat (by omega) (by omega)]
      · -- a full batch, then recurse on the remainder
        have hsplit : pre ++ x :: rest
            = (pre ++ (x :: rest).take bs.toNat) ++ (x :: rest).drop bs.toNat := by
          rw [List.append_assoc, List.take_append_drop]
        have hidx : (pre.length : Int) + bs
            = (((pre ++ (x :: rest).take bs.toNat).length : Nat) : Int) := by
          rw [List.length_append, List.length_take]
          push_cast
          omega
        rw [hsplit, hidx]
        rw [ih ((x :: rest).drop bs.toNat) (pre ++ (x :: rest).take bs.toNat)
          (acc ++ (((x :: rest).take bs.toNat).map f)) (count + 1)
          (by rw [List.length_drop]; omega)]
        rw [List.append_assoc, ← List.map_append, List.take_append_drop]
        rw [List.length_drop]
        rw [ceilDiv_step (x :: rest).length bs.toNat (by omega) (by omega)]
        rw [Nat.add_assoc]

/-- With batchSize 0 the loop index never advances: while it is below the
item count the loop spins without producing a result, whatever the fuel. -/
theorem processBatchGo_zero_div (f : α → β) (items : List α) :
    ∀ (fuel : Nat) (i : Int) (acc : List β) (count : Nat), i < (items.length : Int) →
      processBatchGo f items 0 fuel i acc count = Option.none := by
  intro fuel
  induction fuel with
  | zero =>
    intro i acc count h
    rfl
  | succ fuel ih =>
    intro i acc count h
    simp only [processBatchGo]
    rw [if_pos h]
    exact ih (i + 0) _ _ (by omega)

/-- With a negative batchSize the loop index only decreases, so from a
nonpositive index over a nonempty list the loop never terminates. -/
theorem processBatchGo_neg_div (f : α → β) (items : List α) (hne : ¬items = [])
    (bs : Int) (hbs : bs ≤ -1) :
    ∀ (fuel : Nat) (i : Int) (acc : List β) (count : Nat), i ≤ 0 →
      processBatchGo f items bs fuel i acc count = Option.none := by
  have hlen : 1 ≤ items.length := List.length_pos.mpr hne
  intro fuel
  induction fuel with
  | zero =>
    intro i acc count h
    rfl
  | succ fuel ih =>
    intro i acc count h
    simp only [processBatchGo]
    rw [if_pos (by omega : i < (items.length : Int))]
    exact ih (i + bs) _ _ (by omega)

theorem exceptAll_append (xs ys : List (Except ε β)) :
    exceptAll (xs ++ ys)
      = match exceptAll xs with
        | Except.error e => Except.error e
        | Except.ok vs =>
          match exceptAll ys with
          | Except.error e => Except.error e
          | Except.ok ws => Except.ok (vs ++ ws) := by
  induction xs with
  | nil =>
    show exceptAll ys = _
    cases exceptAll ys <;> rfl
  | cons r rs ih =>
    simp only [List.cons_append, List.append_eq, exceptAll]
    rw [ih]
    cases r with
    | error e => rfl
    | ok v =>
      dsimp only
      cases exceptAll rs with
      | error e => rfl
      | ok vs =>
        dsimp only
        cases exceptAll ys with
        | error e => rfl
        | ok ws => rfl

/-- When every per-item operation resolves, the batch Promise.all resolves
with the values in input order. -/
theorem exceptAll_ok (f : α → Except ε β) (xs : List α)
    (h : ∀ x ∈ xs, ∃ v, f x = Except.ok v) :
    ∃ vs : List β, exceptAll (xs.map f) = Except.ok vs ∧ vs.length = xs.length ∧
      ∀ i : Nat, (vs[i]?).map Except.ok = (xs[i]?).map f := by
  induction xs with
  | nil => exact ⟨[], rfl, rfl, fun i => rfl⟩
  | cons x xs ih =>
    obtain ⟨v, hv⟩ := h x (List.mem_cons_self x xs)
    obtain ⟨vs, h1, h2, h3⟩ := ih (fun y hy => h y (List.mem_cons_of_mem x hy))
    refine ⟨v :: vs, ?_, by simp [h2], ?_⟩
    · show (match f x with
        | Except.error e => Except.error e
        | Except.ok v =>
          match exceptAll (xs.map f) with
          | Except.error e => Except.error e
          | Except.ok vs => Except.ok (v :: vs)) = _
      rw [hv, h1]
    · intro i
      cases i with
      | zero => simp [hv]
      | succ i => simpa using h3 i

/-- When some per-item operation rejects, the batch Promise.all rejects. -/
theorem exceptAll_error (f : α → Except ε β) (xs : List α)
    (h : ∃ x ∈ xs, ∀ v, ¬f x = Except.ok v) :
    ∃ e : ε, exceptAll (xs.map f) = Except.error e := by
  induction xs with
  | nil =>
    obtain ⟨x, hx, _⟩ := h
    cases hx
  | cons y ys ih =>
    cases hfy : f y with
    | error e =>
      refine ⟨e, ?_⟩
      show (match f y with
        | Except.error e => Except.error e
        | Except.ok v =>
          match exceptAll (ys.map f) with
          | Except.error e => Except.error e
          | Except.ok vs => Except.ok (v :: vs)) = _
      rw [hfy]
    | ok v =>
      obtain ⟨x, hx, hrej⟩ := h
      have hxys : x ∈ ys := by
        rcases List.mem_cons.mp hx with heq | hmem
        · exact (hrej v (by rw [heq]; exact hfy)).elim
        · exact hmem
      obtain ⟨e, he⟩ := ih ⟨x, hxys, hrej⟩
      refine ⟨e, ?_⟩
      show (match f y with
        | Except.error e => Except.error e
        | Except.ok v =>
          match exceptAll (ys.map f) with
          | Except.error e => Except.error e
          | Except.ok vs => Except.ok (v :: vs)) = _
      rw [hfy, he]

/-- Completeness of the fallible batch loop for a positive batch size: from
a split point with sufficient fuel, the loop either consumes the tail batch
by batch and resolves with the mapped results in order, or rejects with the
rejection of the earliest failed batch. -/
theorem processBatchEGo_complete (f : α → Except ε β) (bs : Int) (hbs : 1 ≤ bs) :
    ∀ (fuel : Nat) (post pre : List α) (acc : List β),
      post.length + 1 ≤ fuel →
      processBatchEGo f (pre ++ post) bs fuel (pre.length : Int) acc
        = Option.some (match exceptAll (post.map f) with
            | Except.error e => Except.error e
            | Except.ok vs => Except.ok (acc ++ vs)) := by
  intro fuel
  induction fuel with
  | zero =>
    intro post pre acc h
    omega
  | succ fuel ih =>
    intro post pre acc hfuel
    cases post with
    | nil =>
      simp only [processBatchEGo]
      rw [if_neg (by rw [List.append_nil]; omega)]
      simp [exceptAll]
    | cons x rest =>
      have hlen : (x :: rest).length = rest.length + 1 := rfl
      simp only [processBatchEGo]
      rw [if_pos (by rw [List.length_append]; push_cast; omega)]
      rw [jsSlice_batch pre (x :: rest) bs hbs]
      have hsplitmap : (x :: rest).map f
          = ((x :: rest).take bs.toNat).map f ++ ((x :: rest).drop bs.toNat).map f := by
        rw [← List.map_append, List.take_append_drop]
      rcases Nat.lt_or_ge (x :: rest).length (bs.toNat + 1) with hble | hbgt
      · -- the final batch: everything left fits in one batch
        rw [List.take_of_length_le (by omega : (x :: rest).length ≤ bs.toNat)]
        cases hall : exceptAll ((x :: rest).map f) with
        | error e => rfl
        | ok vs =>
          dsimp only
          have hfuel1 : 1 ≤ fuel := by omega
          rcases Nat.exists_eq_add_of_le hfuel1 with ⟨g, hg⟩
          rw [(by omega : fuel = g + 1)]
          simp only [processBatchEGo]
          rw [if_neg (by rw [List.length_append]; push_cast; omega)]
      · -- a full batch, then recurse on the remainder
        cases hbatch : exceptAll (((x :: rest).take bs.toNat).map f) with
        | error e =>
          dsimp only
          rw [hsplitmap, exceptAll_append, hbatch]
        | ok vs =>
          dsimp only
          have hsplit : pre ++ x :: rest
              = (pre ++ (x :: rest).take bs.toNat) ++ (x :: rest).drop bs.toNat := by
            rw [List.append_assoc, List.take_append_drop]
          have hidx : (pre.length : Int) + bs
              = (((pre ++ (x :: rest).take bs.toNat).length : Nat) : Int) := by
            rw [List.length_append, List.length_take]
            push_cast
            omega
          rw [hsplit, hidx]
          rw [ih ((x :: rest).drop bs.toNat) (pre ++ (x :: rest).take bs.toNat)
            (acc ++ vs) (by rw [List.length_drop]; omega)]
          rw [hsplitmap, exceptAll_append, hbatch]
          dsimp only
          cases exceptAll (((x :: rest).drop bs.toNat).map f) with
          | error e => rfl
          | ok ws =>
            dsimp only
            rw [List.append_assoc]

/-- C9 counterexample: the claim quantifies over every batch size and every
per-item operation, and fails on both counts.  At batchSize 0 the loop
never advances, so processBatch produces no result list at all on a
one-element input, whatever the fuel; and a per-item operation that rejects
makes the whole call reject — here item 2 of three rejects under batch size
2, and no ordered length-3 outcome sequence is returned. -/
theorem c9_order_counterexample :
    processBatch (fun n : Nat => n * 2) [1] 0 = Option.none ∧
    (¬∃ (fuel : Nat) (r : List Nat × Nat),
        processBatchGo (fun n : Nat => n * 2) [1] 0 fuel 0 [] 0 = Option.some r) ∧
    processBatchE (fun n : Nat => if n = 2 then Except.error "boom" else Except.ok (n * 10))
        [1, 2, 3] 2 = Option.some (Except.error "boom") ∧
    (¬∃ r : List Nat,
        processBatchE (fun n : Nat => if n = 2 then Except.error "boom" else Except.ok (n * 10))
          [1, 2, 3] 2 = Option.some (Except.ok r)) := by
  refine ⟨processBatchGo_zero_div (fun n => n * 2) [1] 2 0 [] 0 (by decide), ?_, rfl, ?_⟩
  · rintro ⟨fuel, r, hr⟩
    rw [processBatchGo_zero_div (fun n => n * 2) [1] fuel 0 [] 0 (by decide)] at hr
    exact Option.noConfusion hr
  · rintro ⟨r, hr⟩
    have hval : processBatchE
        (fun n : Nat => if n = 2 then Except.error "boom" else Except.ok (n * 10)) [1, 2, 3] 2
          = Option.some (Except.error "boom") := rfl
    rw [hval] at hr
    exact Except.noConfusion (Option.some.inj hr)

/-- C9 amended: for every batch size of at least one (the original claim
fails at nonpositive batch sizes, where the loop does not terminate) and
every per-item operation: when every item resolves, processBatch resolves
with the result list of the same length as the input whose i-th element is
the image of the i-th input item, and for each batch the Promise.all
assembly places every settled value at its original index, so the order is
independent of the completion order of the operations; when some item
rejects, the wrapped call rethrows, the whole processBatch call rejects,
and no ordered outcome sequence is returned. -/
theorem c9_batch_order :
    ∀ (α β ε : Type) (f : α → Except ε β) (items : List α) (bs : Int), 1 ≤ bs →
      ((∀ x ∈ items, ∃ v, f x = Except.ok v) →
        ∃ r : List β,
          processBatchE f items bs = Option.some (Except.ok r) ∧
          r.length = items.length ∧
          (∀ i : Nat, (r[i]?).map Except.ok = (items[i]?).map f) ∧
          (∀ events : List (Nat × β), events.Perm r.enum →
              settleAll r.length events = r.map Option.some)) ∧
      ((∃ x ∈ items, ∀ v, ¬f x = Except.ok v) →
        ∃ e : ε, processBatchE f items bs = Option.some (Except.error e) ∧
          ∀ r : List β, ¬processBatchE f items bs = Option.some (Except.ok r)) := by
  intro α β ε f items bs hbs
  have hcomp := processBatchEGo_complete f bs hbs (items.length + 1) items [] [] (by omega)
  constructor
  · intro hres
    obtain ⟨vs, h1, h2, h3⟩ := exceptAll_ok f items hres
    refine ⟨vs, ?_, h2, h3, fun events hperm => settleAll_of_perm vs events hperm⟩
    simpa [processBatchE, h1] using hcomp
  · intro hrej
    obtain ⟨e, he⟩ := exceptAll_error f items hrej
    have hmain : processBatchE f items bs = Option.some (Except.error e) := by
      simpa [processBatchE, he] using hcomp
    refine ⟨e, hmain, fun r hr => ?_⟩
    rw [hmain] at hr
    simp at hr

/-- Witness for C9 at concrete inputs: three always-resolving items in
batches of two; a rejecting second item of three; and a Promise.all
assembly whose operations complete out of order. -/
theorem c9_batch_order_witness :
    (∃ r : List Nat, processBatchE (fun n : Nat => (Except.ok (n * 2) : Except String Nat))
        [10, 20, 30] 2 = Option.some (Except.ok r) ∧ r.length = 3) ∧
    (∃ e : String, processBatchE
        (fun n : Nat => if n = 2 then Except.error "boom" else Except.ok (n * 10))
        [1, 2, 3] 2 = Option.some (Except.error e)) ∧
    settleAll 3 [(2, 60), (0, 20), (1, 40)]
      = [Option.some 20, Option.some 40, Option.some 60] := by
  obtain ⟨r, h1, h2, h3, h4⟩ := (c9_batch_order Nat Nat String
      (fun n => (Except.ok (n * 2) : Except String Nat)) [10, 20, 30] 2 (by decide)).1
    (fun x hx => ⟨x * 2, rfl⟩)
  refine ⟨⟨r, h1, by rw [h2]; rfl⟩, ?_, ?_⟩
  · obtain ⟨e, he, _⟩ := (c9_batch_order Nat Nat String
        (fun n : Nat => if n = 2 then Except.error "boom" else Except.ok (n * 10))
        [1, 2, 3] 2 (by decide)).2
      ⟨2, by decide, fun v hv => by rw [if_pos rfl] at hv; exact Except.noConfusion hv⟩
    exact ⟨e, he⟩
  · have hval : processBatchE (fun n : Nat => (Except.ok (n * 2) : Except String Nat))
        [10, 20, 30] 2 = Option.some (Except.ok [20, 40, 60]) := rfl
    have hr : r = [20, 40, 60] := by
      have h5 := h1.symm.trans hval
      simpa using h5
    subst hr
    have h6 := h4 [(2, 60), (0, 20), (1, 40)] (by decide)
    simpa using h6

/-- C10: with a positive batch size processBatch terminates after exactly
the ceiling of item count over batch size many sequential batches,
producing the mapped results; with batchSize 0 the loop never advances and
no fuel suffices; with a negative batchSize the loop likewise never
terminates; the executor itself performs no validation of batchSize (the
loop is entered regardless, as the divergence at nonpositive sizes shows). -/
theorem c10_batch_termination :
    ∀ (α β : Type) (f : α → β) (items : List α), ¬items = [] →
      (∀ bs : Int, 1 ≤ bs →
          processBatch f items bs
            = Option.some (items.map f, ceilDiv items.length bs.toNat) ∧
          (∀ fuel : Nat, items.length + 1 ≤ fuel →
              processBatchGo f items bs fuel 0 [] 0
                = Option.some (items.map f, ceilDiv items.length bs.toNat))) ∧
      (∀ fuel : Nat, processBatchGo f items 0 fuel 0 [] 0 = Option.none) ∧
      (∀ bs : Int, bs ≤ -1 → ∀ fuel : Nat,
          processBatchGo f items bs fuel 0 [] 0 = Option.none) := by
  intro α β f items hne
  refine ⟨?_, ?_, ?_⟩
  · intro bs hbs
    constructor
    · have h := processBatchGo_complete f bs hbs (items.length + 1) items [] [] 0 (by omega)
      simpa using h
    · intro fuel hfuel
      have h := processBatchGo_complete f bs hbs fuel items [] [] 0 (by omega)
      simpa using h
  · intro fuel
    apply processBatchGo_zero_div
    have := List.length_pos.mpr hne
    omega
  · intro bs hbs fuel
    exact processBatchGo_neg_div f items hne bs hbs fuel 0 [] 0 (by omega)

/-- Witness for C10 at concrete inputs: five items in batches of two need
exactly three batches; with batch size 0 or -1 the loop never produces a
result. -/
theorem c10_batch_termination_witness :
    processBatch (fun n : Nat => n + 1) [1, 2, 3, 4, 5] 2
      = Option.some ([2, 3, 4, 5, 6], 3) ∧
    processBatchGo (fun n : Nat => n + 1) [1, 2, 3, 4, 5] 0 1000 0 [] 0 = Option.none ∧
    processBatchGo (fun n : Nat => n + 1) [1, 2, 3, 4, 5] (-1) 1000 0 [] 0 = Option.none := by
  have h := c10_batch_termination Nat Nat (fun n => n + 1) [1, 2, 3, 4, 5] (by decide)
  refine ⟨?_, h.2.1 1000, h.2.2 (-1) (by decide) 1000⟩
  have h1 := (h.1 2 (by decide)).1
  simpa using h1

end McpLinear
